import Mathlib

/-!
Shallow embedding of the multi-user correlation core of the
`custom_indicators` package (`colocation.py`, `network.py`).

Modelling conventions:
- `datetime` values are absolute instants in epoch seconds (`Int`);
  Python `timedelta.total_seconds()` becomes plain `Int` subtraction,
  `timedelta(minutes=m)`/`timedelta(hours=h)` become `m * 60`/`h * 3600`.
- Nullable fields (`position.antenna`, `correspondent_id`, `call_duration`)
  are `Option`s; Python truthiness (`if r.position.antenna:`) is `pyTruthy`
  (both `None` and the empty string are falsy).
- Python's stable `list.sort`/`sorted` is modelled by `List.insertionSort`,
  which is stable for the `key`-induced `≤` relations used here;
  `sorted(..., reverse=True)` is the stable sort by the flipped relation.
- Python `dict` results keyed by insertion order are modelled as association
  lists built in the same iteration order; `set(...)` values whose iteration
  order the interpreter does not fix are modelled canonically by
  `List.dedup` (the theorems below only use counts and membership of these).
- `for i, user in enumerate(users): user_id = user_ids[i]` is modelled as
  iteration over `users.zip user_ids` (the two lists are paired positionally).
-/

/-- One interaction record (`bandicoot` record shape used by the sources). -/
structure Record where
  datetime : Int
  antenna : Option String
  correspondent_id : Option String
  direction : String
  interaction : String
  call_duration : Option Int
deriving Repr, DecidableEq

/-- A subject: its record collection and its antenna coordinate table
(`user.antennas`; the empty list models both `None` and `{}`). -/
structure User where
  records : List Record
  antennas : List (String × Int × Int)
deriving Repr, DecidableEq

/-- Python truthiness of a nullable string: `None` and `""` are falsy. -/
def pyTruthy : Option String → Bool
  | none => false
  | some s => s ≠ ""

/-! ## colocation.antenna_overlap -/

/-- One element of the list returned by `antenna_overlap`. -/
structure Overlap where
  antenna_id : String
  user_a_time : Int
  user_b_time : Int
  delta_seconds : Int
  coordinates : Option (Int × Int)
deriving Repr, DecidableEq

/-- `antennas = user_a.antennas or user_b.antennas or {}`: the whole-table
`or` chain picks the first truthy (non-empty) table. -/
def pickTable (user_a user_b : User) : List (String × Int × Int) :=
  if user_a.antennas ≠ [] then user_a.antennas else user_b.antennas

/-- `colocation.antenna_overlap`.  The `b_by_antenna` bucket index is modelled
by filtering `user_b.records` per tag (same contents and order as the
`defaultdict` bucket; `antenna not in b_by_antenna` is exactly "the bucket is
empty", which the empty filter also yields). -/
def antenna_overlap (user_a user_b : User) (window_minutes : Int) : List Overlap :=
  let window_seconds := window_minutes * 60
  let antennas := pickTable user_a user_b
  let b_by_antenna := fun ant =>
    user_b.records.filter (fun r => pyTruthy r.antenna && (r.antenna == some ant))
  let overlaps := user_a.records.flatMap (fun rec_a =>
    match rec_a.antenna with
    | none => []
    | some antenna =>
      (b_by_antenna antenna).filterMap (fun rec_b =>
        let delta := |rec_a.datetime - rec_b.datetime|
        if delta ≤ window_seconds then
          some { antenna_id := antenna, user_a_time := rec_a.datetime,
                 user_b_time := rec_b.datetime, delta_seconds := delta,
                 coordinates := antennas.lookup antenna }
        else none))
  List.insertionSort (fun x y => x.user_a_time ≤ y.user_a_time) overlaps

/-! ## colocation.travel_pattern_match -/

/-- One location transition (`{'from', 'to', 'time'}` dict). -/
structure Transition where
  fromTag : Option String
  toTag : Option String
  time : Int
deriving Repr, DecidableEq

/-- One match returned by `travel_pattern_match`. -/
structure TravelMatch where
  from_antenna : Option String
  to_antenna : Option String
  user_a_time : Int
  user_b_time : Int
  delta_seconds : Int
deriving Repr, DecidableEq

/-- The `get_transitions` helper nested in `travel_pattern_match`:
time-sort the located records, keep consecutive pairs whose tag changes. -/
def get_transitions (user : User) : List Transition :=
  let sorted_records := List.insertionSort (fun x y => x.datetime ≤ y.datetime)
    (user.records.filter (fun r => pyTruthy r.antenna))
  (sorted_records.zip sorted_records.tail).filterMap (fun pc =>
    if pc.1.antenna ≠ pc.2.antenna then
      some { fromTag := pc.1.antenna, toTag := pc.2.antenna, time := pc.2.datetime }
    else none)

/-- `colocation.travel_pattern_match`.  `min_sequence_length` is accepted,
as in the source, and never read past the signature. -/
def travel_pattern_match (user_a user_b : User) (window_minutes : Int)
    (min_sequence_length : Nat) : List TravelMatch :=
  let window_seconds := window_minutes * 60
  let trans_a := get_transitions user_a
  let trans_b := get_transitions user_b
  if trans_a = [] ∨ trans_b = [] then []
  else
    trans_a.flatMap (fun ta =>
      trans_b.filterMap (fun tb =>
        if ta.fromTag == tb.fromTag && ta.toTag == tb.toTag then
          let delta := |ta.time - tb.time|
          if delta ≤ window_seconds then
            some { from_antenna := ta.fromTag, to_antenna := ta.toTag,
                   user_a_time := ta.time, user_b_time := tb.time,
                   delta_seconds := delta }
          else none
        else none))

/-! ## colocation.multi_user_colocation -/

/-- One entry of the merged hit timeline (`{'user_index','datetime','antenna'}`). -/
structure Hit where
  user_index : Nat
  datetime : Int
  antenna : String
deriving Repr, DecidableEq

/-- One multi-party cluster result. -/
structure Cluster where
  antenna : String
  user_indices : List Nat
  participant_count : Nat
  earliest_time : Int
  latest_time : Int
  time_span_seconds : Int
deriving Repr, DecidableEq

/-- `for i, user in enumerate(users)` collecting located hits, carrying the
running entity index explicitly. -/
def hitsFrom (i : Nat) : List User → List Hit
  | [] => []
  | u :: us =>
    u.records.filterMap (fun r =>
      match r.antenna with
      | some a => if pyTruthy (some a) then some { user_index := i, datetime := r.datetime, antenna := a } else none
      | none => none) ++ hitsFrom (i + 1) us

/-- The inner greedy absorption scan: walk the timeline after `hit`, stop at
the first hit past `hit.datetime + window_seconds` (forward-only delta, no
`abs`), absorb same-antenna hits from entities not yet in the cluster.
The cluster list grows at the tail, as Python `append` does. -/
def growCluster (hit : Hit) (window_seconds : Int) : List Hit → List Hit → List Hit
  | [], cluster => cluster
  | other :: later, cluster =>
    if window_seconds < other.datetime - hit.datetime then cluster
    else if other.antenna == hit.antenna && other.user_index != hit.user_index
            && !((cluster.map (·.user_index)).contains other.user_index) then
      growCluster hit window_seconds later (cluster ++ [other])
    else
      growCluster hit window_seconds later cluster

/-- Build the emitted cluster dict from a grown cluster.  `hit.datetime` is a
member of `times`, so seeding the `min`/`max` folds with it computes exactly
`min(times)`/`max(times)`.  `sorted(set(...))` is the ascending sort of the
deduplicated index list. -/
def emitCluster (hit : Hit) (cluster : List Hit) : Cluster :=
  let user_indices := List.insertionSort (fun x y => x ≤ y) (cluster.map (·.user_index)).dedup
  let times := cluster.map (·.datetime)
  let earliest := times.foldl min hit.datetime
  let latest := times.foldl max hit.datetime
  { antenna := hit.antenna, user_indices := user_indices,
    participant_count := user_indices.length,
    earliest_time := earliest, latest_time := latest,
    time_span_seconds := latest - earliest }

/-- The outer pass of `multi_user_colocation`: one candidate cluster per
timeline position, emitted when it reaches 3 or more members. -/
def clustersOf (window_seconds : Int) : List Hit → List Cluster
  | [] => []
  | hit :: rest =>
    let cluster := growCluster hit window_seconds rest [hit]
    (if 3 ≤ cluster.length then [emitCluster hit cluster] else []) ++
      clustersOf window_seconds rest

/-- The dedup key `(antenna, tuple(user_indices), earliest.isoformat()[:16])`:
the minute-truncated timestamp is the floor division of epoch seconds by 60. -/
def clusterKey (c : Cluster) : String × List Nat × Int :=
  (c.antenna, c.user_indices, c.earliest_time.ediv 60)

/-- The `seen`-set dedup loop at the end of `multi_user_colocation`. -/
def dedupClusters (seen : List (String × List Nat × Int)) :
    List Cluster → List Cluster
  | [] => []
  | c :: rest =>
    if clusterKey c ∈ seen then dedupClusters seen rest
    else c :: dedupClusters (clusterKey c :: seen) rest

/-- `colocation.multi_user_colocation`. -/
def multi_user_colocation (users : List User) (window_minutes : Int) : List Cluster :=
  let window_seconds := window_minutes * 60
  let all_hits := List.insertionSort (fun x y => x.datetime ≤ y.datetime) (hitsFrom 0 users)
  dedupClusters [] (clustersOf window_seconds all_hits)

/-! ## network.build_communication_matrix -/

/-- The directed key a record folds into: `(user_id, correspondent)` for an
outgoing record, `(correspondent, user_id)` otherwise.  The correspondent side
keeps its nullability, exactly as the Python dict key does. -/
def commKey (user_id : String) (r : Record) : Option String × Option String :=
  if r.direction = "out" then (some user_id, r.correspondent_id)
  else (r.correspondent_id, some user_id)

/-- `matrix[key] += 1` on an insertion-ordered association list
(`defaultdict(int)` semantics). -/
def bumpMatrix (k : Option String × Option String) :
    List ((Option String × Option String) × Nat) →
    List ((Option String × Option String) × Nat)
  | [] => [(k, 1)]
  | (k', n) :: rest =>
    if k' = k then (k', n + 1) :: rest else (k', n) :: bumpMatrix k rest

/-- `network.build_communication_matrix`. -/
def build_communication_matrix (users : List User) (user_ids : List String) :
    List ((Option String × Option String) × Nat) :=
  (users.zip user_ids).foldl (fun m p =>
    p.1.records.foldl (fun m r => bumpMatrix (commKey p.2 r) m) m) []

/-- Total count held under key `k` in a matrix association list (the matrix
keeps each key once, so this is that key's count, and `0` when absent). -/
def countOf (k : Option String × Option String) :
    List ((Option String × Option String) × Nat) → Nat
  | [] => 0
  | (k', n) :: rest => if k' = k then n + countOf k rest else countOf k rest

/-! ## network.degree_centrality -/

/-- The per-user value of the `degree_centrality` result dict. -/
structure Centrality where
  total_contacts : Nat
  in_network_contacts : Nat
  out_of_network_contacts : Nat
  in_network_list : List (Option String)
  out_of_network_list : List (Option String)
deriving Repr, DecidableEq

/-- `contacts = set(r.correspondent_id for r in user.records)` split against
`user_id_set`; a null correspondent is never in the id set, so it lands in
the out-of-network part. -/
def centralityOf (user_ids : List String) (u : User) : Centrality :=
  let contacts := (u.records.map (·.correspondent_id)).dedup
  let in_network := contacts.filter (fun c =>
    match c with
    | some s => decide (s ∈ user_ids)
    | none => false)
  let out_network := contacts.filter (fun c =>
    match c with
    | some s => decide (s ∉ user_ids)
    | none => true)
  { total_contacts := contacts.length,
    in_network_contacts := in_network.length,
    out_of_network_contacts := out_network.length,
    in_network_list := in_network,
    out_of_network_list := out_network }

/-- `network.degree_centrality`: the per-user dict (keyed by `user_id`, so the
ids are assumed pairwise distinct as in the source's intended use), sorted by
total contact count descending (stable). -/
def degree_centrality (users : List User) (user_ids : List String) :
    List (String × Centrality) :=
  List.insertionSort (fun x y => y.2.total_contacts ≤ x.2.total_contacts)
    ((users.zip user_ids).map (fun p => (p.2, centralityOf user_ids p.1)))

/-! ## network.communication_chains -/

/-- One outgoing communication event of the global timeline. -/
structure Comm where
  fromId : String
  toId : Option String
  time : Int
deriving Repr, DecidableEq

/-- One detected chain (`sequence` keeps the Python value shapes: the first
element is the sender id, the other two are raw correspondent ids). -/
structure Chain where
  sequence : List (Option String)
  times : List Int
  total_time_seconds : Int
  a_to_b : Comm
  b_to_c : Comm
deriving Repr, DecidableEq

/-- The outgoing-communication timeline of `communication_chains` (before
sorting). -/
def chainComms (users : List User) (user_ids : List String) : List Comm :=
  (users.zip user_ids).flatMap (fun p =>
    p.1.records.filterMap (fun r =>
      if r.direction = "out" then
        some { fromId := p.2, toId := r.correspondent_id, time := r.datetime }
      else none))

/-- The forward scan from one `A→B` event: walk later events until the window
is exceeded (then break), emitting a chain for every event whose sender is
the first event's recipient. -/
def chainInner (comm_ab : Comm) (window_seconds : Int) : List Comm → List Chain
  | [] => []
  | comm_bc :: later =>
    let delta := comm_bc.time - comm_ab.time
    if window_seconds < delta then []
    else
      (if comm_ab.toId == some comm_bc.fromId then
        [{ sequence := [some comm_ab.fromId, comm_ab.toId, comm_bc.toId],
           times := [comm_ab.time, comm_bc.time],
           total_time_seconds := delta,
           a_to_b := comm_ab, b_to_c := comm_bc }]
      else []) ++ chainInner comm_ab window_seconds later

/-- The outer enumeration of `communication_chains` over the sorted timeline. -/
def chainOuter (window_seconds : Int) : List Comm → List Chain
  | [] => []
  | comm_ab :: later =>
    chainInner comm_ab window_seconds later ++ chainOuter window_seconds later

/-- `network.communication_chains`. -/
def communication_chains (users : List User) (user_ids : List String)
    (time_window_minutes : Int) : List Chain :=
  chainOuter (time_window_minutes * 60)
    (List.insertionSort (fun x y => x.time ≤ y.time) (chainComms users user_ids))

/-! ## network.shared_contacts -/

/-- `network.shared_contacts`: invert the per-user contact sets into
contact → sharing-users, keep contacts shared by at least `min_shared` users,
sort by sharer count descending.  Key order is canonicalised by first record
appearance (Python iterates each user's contact `set`, whose order the
interpreter does not fix); values are in user order, as in the source. -/
def shared_contacts (users : List User) (user_ids : List String)
    (min_shared : Nat) : List (Option String × List String) :=
  let all_contacts :=
    ((users.zip user_ids).flatMap (fun p => (p.1.records.map (·.correspondent_id)).dedup)).dedup
  let contact_to_users := all_contacts.map (fun c =>
    (c, (users.zip user_ids).filterMap (fun p =>
      if c ∈ p.1.records.map (·.correspondent_id) then some p.2 else none)))
  let shared := contact_to_users.filter (fun p => min_shared ≤ p.2.length)
  List.insertionSort (fun x y => y.2.length ≤ x.2.length) shared

/-! ## network.communication_volume_matrix -/

/-- The per-pair accumulator of the volume matrix. -/
structure Volume where
  total : Nat
  calls : Nat
  texts : Nat
  duration : Int
deriving Repr, DecidableEq

/-- `tuple(sorted([user_id, r.correspondent_id]))`: comparing a string with
`None` raises `TypeError` in Python 3, modelled as `Except.error`. -/
def pySorted2 (user_id : String) : Option String → Except Unit (String × String)
  | none => Except.error ()
  | some c => Except.ok (if user_id ≤ c then (user_id, c) else (c, user_id))

/-- Fold one record into a pair's volume cell (`if r.call_duration:` is
Python-truthy: `None` and `0` both skip the duration sum). -/
def updVolume (r : Record) (v : Volume) : Volume :=
  let v := { v with total := v.total + 1 }
  if r.interaction = "call" then
    let v := { v with calls := v.calls + 1 }
    match r.call_duration with
    | some d => if d ≠ 0 then { v with duration := v.duration + d } else v
    | none => v
  else { v with texts := v.texts + 1 }

/-- `matrix[pair]` update on an insertion-ordered association list. -/
def bumpVolume (r : Record) (k : String × String) :
    List ((String × String) × Volume) → List ((String × String) × Volume)
  | [] => [(k, updVolume r { total := 0, calls := 0, texts := 0, duration := 0 })]
  | (k', v) :: rest =>
    if k' = k then (k', updVolume r v) :: rest else (k', v) :: bumpVolume r k rest

/-- `network.communication_volume_matrix`; the first null correspondent makes
the pair normalisation raise, aborting the whole call. -/
def communication_volume_matrix (users : List User) (user_ids : List String) :
    Except Unit (List ((String × String) × Volume)) := do
  let m ← (users.zip user_ids).foldlM (fun m p =>
    p.1.records.foldlM (fun m r => do
      let pair ← pySorted2 p.2 r.correspondent_id
      pure (bumpVolume r pair m)) m) []
  pure (List.insertionSort (fun x y => y.2.total ≤ x.2.total) m)

/-! ## network.network_timeline -/

/-- One time bucket of the network timeline. -/
structure Bucket where
  start : Int
  stop : Int
  active_pairs : List (String × String)
  unique_pair_count : Nat
  total_communications : Nat
deriving Repr, DecidableEq

/-- The `(time, pair)` communication list of `network_timeline`; building a
pair with a null correspondent raises, as in `pySorted2`. -/
def ntComms (users : List User) (user_ids : List String) :
    Except Unit (List (Int × String × String)) :=
  (users.zip user_ids).foldlM (fun acc p =>
    p.1.records.foldlM (fun acc r => do
      let pair ← pySorted2 p.2 r.correspondent_id
      pure (acc ++ [(r.datetime, pair)])) acc) []

/-- `first_time.replace(hour=0, minute=0, second=0, microsecond=0)` on the
epoch-seconds clock: floor to the day. -/
def midnightOf (t : Int) : Int := t.ediv 86400 * 86400

/-- Totality of the time ordering sorting the communication list. -/
instance : IsTotal (Int × String × String) (fun x y => x.1 ≤ y.1) :=
  ⟨fun a b => le_total a.1 b.1⟩

/-- Transitivity of the time ordering sorting the communication list. -/
instance : IsTrans (Int × String × String) (fun x y => x.1 ≤ y.1) :=
  ⟨fun _ _ _ h1 h2 => le_trans h1 h2⟩

/-- The bucketing `while current_start <= last_time` loop, with explicit fuel:
`none` means the fuel ran out, i.e. the loop has not terminated within that
many iterations.  Buckets are produced front to back, as Python appends them. -/
def ntLoop (bucket_delta : Int) (comms : List (Int × String × String))
    (last_time : Int) : Nat → Int → Option (List Bucket)
  | 0, _ => none
  | fuel + 1, current_start =>
    if current_start ≤ last_time then
      let current_end := current_start + bucket_delta
      let bucket_comms := comms.filter (fun c =>
        decide (current_start ≤ c.1) && decide (c.1 < current_end))
      match ntLoop bucket_delta comms last_time fuel current_end with
      | none => none
      | some rest =>
        if bucket_comms.isEmpty then some rest
        else
          let active_pairs := (bucket_comms.map (·.2)).dedup
          some ({ start := current_start, stop := current_end,
                  active_pairs := active_pairs,
                  unique_pair_count := active_pairs.length,
                  total_communications := bucket_comms.length } :: rest)
    else some []

/-- The part of `network_timeline` from the sort onward, on an already built
communication list. -/
def network_timeline_core (all_comms : List (Int × String × String))
    (time_bucket_hours : Int) (fuel : Nat) : Option (List Bucket) :=
  match List.insertionSort (fun x y => x.1 ≤ y.1) all_comms with
  | [] => some []
  | c0 :: rest =>
    ntLoop (time_bucket_hours * 3600) (c0 :: rest)
      ((c0 :: rest).getLast (by simp)).1 fuel (midnightOf c0.1)

/-- `network.network_timeline`, fuelled: `some (.ok buckets)` is a normal
return, `some (.error ())` is the Python `TypeError` raised while building a
pair, and `none` means the bucketing loop exceeded the fuel. -/
def network_timeline (users : List User) (user_ids : List String)
    (time_bucket_hours : Int) (fuel : Nat) : Option (Except Unit (List Bucket)) :=
  match ntComms users user_ids with
  | .error e => some (.error e)
  | .ok all_comms =>
    if all_comms = [] then some (.ok [])
    else (network_timeline_core all_comms time_bucket_hours fuel).map Except.ok

/-! ## network.identify_bridges -/

/-- One bridge record. -/
structure Bridge where
  user_id : String
  exclusive_contacts : List String
  exclusive_count : Nat
  total_contacts : Nat
deriving Repr, DecidableEq

/-- `set(r.correspondent_id for r in user.records) & user_id_set`: the
in-network contact set of one user (null correspondents are not in the id
set, hence dropped). -/
def in_network_contacts (user_ids : List String) (u : User) : List String :=
  (u.records.map (·.correspondent_id)).dedup.filterMap (fun c =>
    c.bind (fun s => if s ∈ user_ids then some s else none))

/-- The `user_contacts` dict of `identify_bridges`: per (user, id) pair, the
id with the user's in-network contact set. -/
def bridgeContacts (users : List User) (user_ids : List String) :
    List (String × List String) :=
  (users.zip user_ids).map (fun p => (p.2, in_network_contacts user_ids p.1))

/-- `others_contacts`: the union of every other entity's in-network contact
set (all entries whose key differs from `uid`). -/
def othersContacts (user_contacts : List (String × List String))
    (uid : String) : List String :=
  (user_contacts.filter (fun q => q.1 ≠ uid)).flatMap (fun q => q.2)

/-- `exclusive = contacts - others_contacts - {user_id}` for one entry. -/
def exclusiveOf (user_contacts : List (String × List String))
    (e : String × List String) : List String :=
  e.2.filter (fun c =>
    decide (c ∉ othersContacts user_contacts e.1) && decide (c ≠ e.1))

/-- `network.identify_bridges` (ids are assumed pairwise distinct, matching
the `user_contacts` dict keyed by `user_id`). -/
def identify_bridges (users : List User) (user_ids : List String) : List Bridge :=
  let user_contacts := bridgeContacts users user_ids
  let bridges := user_contacts.filterMap (fun e =>
    let exclusive := exclusiveOf user_contacts e
    if exclusive.isEmpty then none
    else
      some { user_id := e.1, exclusive_contacts := exclusive,
             exclusive_count := exclusive.length, total_contacts := e.2.length })
  List.insertionSort (fun x y => y.exclusive_count ≤ x.exclusive_count) bridges

/-! ## Concrete inputs used by the counterexamples and witnesses below -/

/-- Entity A of the coordinate-resolution scenario: one record at tag `L2`,
but a non-empty coordinate table knowing only `L1`. -/
def c1A : User := ⟨[⟨0, some "L2", none, "out", "call", none⟩], [("L1", (1, 1))]⟩

/-- Entity B of the coordinate-resolution scenario: one record at tag `L2`,
and a coordinate table knowing `L2`. -/
def c1B : User := ⟨[⟨0, some "L2", none, "in", "call", none⟩], [("L2", (2, 2))]⟩

/-- Entity X of the bridge scenario: its only contact is the external id `Z`. -/
def c2X : User := ⟨[⟨0, none, some "Z", "out", "call", none⟩], []⟩

/-- Entity Y of the bridge scenario: its only contact is the external id `Q`. -/
def c2Y : User := ⟨[⟨0, none, some "Q", "out", "call", none⟩], []⟩

/-- Entity X of the in-network bridge scenario: its only contact is the
modeled entity `Y`. -/
def w2X : User := ⟨[⟨0, none, some "Y", "out", "call", none⟩], []⟩

/-- A record whose correspondent identifier is null. -/
def r3 : Record := ⟨0, none, none, "out", "call", none⟩

/-- A user holding one record with a null correspondent. -/
def u3 : User := ⟨[r3], []⟩

/-- Three entities hitting tag `T` within seconds of each other. -/
def users3 : List User :=
  [⟨[⟨0, some "T", none, "in", "call", none⟩], []⟩,
   ⟨[⟨10, some "T", none, "in", "call", none⟩], []⟩,
   ⟨[⟨20, some "T", none, "in", "call", none⟩], []⟩]

/-- The cluster `multi_user_colocation users3 30` emits. -/
def users3Cluster : Cluster :=
  ⟨"T", [0, 1, 2], 3, 0, 20, 20⟩

/-- The chain-correctness timeline: `A→B` at `t0`, `B→C` at `t0+300`,
`C→D` at `t0+4000` (entities `A`, `B`, `C`; `D` is only a correspondent). -/
def chainUsers (t0 : Int) : List User :=
  [⟨[⟨t0, none, some "B", "out", "call", none⟩], []⟩,
   ⟨[⟨t0 + 300, none, some "C", "out", "call", none⟩], []⟩,
   ⟨[⟨t0 + 4000, none, some "D", "out", "call", none⟩], []⟩]

/-- Two entities: `A→B` at `t=0` and `B→A` at `t=100`. -/
def c9users : List User :=
  [⟨[⟨0, none, some "B", "out", "call", none⟩], []⟩,
   ⟨[⟨100, none, some "A", "out", "call", none⟩], []⟩]

/-- A single user with one communication to `B` at `t=100`. -/
def u10 : User := ⟨[⟨100, none, some "B", "out", "call", none⟩], []⟩

/-- Entity A of the symmetry/monotonicity scenario (§8 concrete scenario of
the spec): at `T1` at 10:00:00 and 10:40:00. -/
def uA : User := ⟨[⟨36000, some "T1", some "B", "out", "call", some 60⟩,
                   ⟨38400, some "T1", some "B", "out", "call", none⟩], [("T1", (1, 2))]⟩

/-- Entity B of the symmetry/monotonicity scenario: at `T1` at 10:05:00. -/
def uB : User := ⟨[⟨36300, some "T1", some "A", "in", "call", some 60⟩], []⟩

/-! # Theorems -/

/-! ## Characterisation of `antenna_overlap` membership -/

/-- An overlap is reported exactly for a pair of records of the two users
sharing a non-empty location tag within the window; its fields are the two
timestamps, their absolute delta, and the tag's coordinate in the single
table `pickTable` chose. -/
theorem mem_antenna_overlap {user_a user_b : User} {w : Int} {o : Overlap} :
    o ∈ antenna_overlap user_a user_b w ↔
      ∃ ra ∈ user_a.records, ∃ rb ∈ user_b.records, ∃ ant : String,
        ra.antenna = some ant ∧ rb.antenna = some ant ∧ ant ≠ "" ∧
        |ra.datetime - rb.datetime| ≤ w * 60 ∧
        o = { antenna_id := ant, user_a_time := ra.datetime,
              user_b_time := rb.datetime,
              delta_seconds := |ra.datetime - rb.datetime|,
              coordinates := (pickTable user_a user_b).lookup ant } := by
  unfold antenna_overlap
  simp only [List.mem_insertionSort, List.mem_flatMap]
  constructor
  · rintro ⟨ra, hra, ho⟩
    cases h : ra.antenna with
    | none => rw [h] at ho; simp at ho
    | some ant =>
      rw [h] at ho
      simp only [List.mem_filterMap, List.mem_filter, Bool.and_eq_true, beq_iff_eq] at ho
      obtain ⟨rb, ⟨hrb, htr, hba⟩, heq⟩ := ho
      split at heq
      · refine ⟨ra, hra, rb, hrb, ant, h, hba, ?_, ?_, ?_⟩
        · rw [hba] at htr; simpa [pyTruthy] using htr
        · assumption
        · exact (Option.some.injEq _ _ ▸ heq).symm
      · exact absurd heq (by simp)
  · rintro ⟨ra, hra, rb, hrb, ant, ha, hb, hne, hw, ho⟩
    refine ⟨ra, hra, ?_⟩
    rw [ha]
    simp only [List.mem_filterMap, List.mem_filter, Bool.and_eq_true, beq_iff_eq]
    refine ⟨rb, ⟨hrb, by simp [pyTruthy, hb, hne], hb⟩, ?_⟩
    rw [if_pos hw, ho]

/-! ## C1: coordinate resolution in `antenna_overlap` -/

/-- C1 (counterexample).  The shared tag `L2` is present in entity B's
coordinate table, yet the single reported overlap carries no coordinate:
the code picks entity A's whole (non-empty) table and never consults B's
per location, so the claimed per-location first-non-null rule fails. -/
theorem antenna_overlap_coordinates_counterexample :
    antenna_overlap c1A c1B 30 = [⟨"L2", 0, 0, 0, none⟩] ∧
    c1B.antennas.lookup "L2" = some (2, 2) ∧
    c1A.antennas ≠ [] := by decide

/-- C1 (amended).  Every overlap's coordinate is the result of looking its
location tag up in the single table chosen for the whole call — entity A's
table when it is non-empty, otherwise entity B's (`pickTable`); the other
entity's table is never consulted, even for tags it alone knows. -/
theorem antenna_overlap_coordinates_from_picked_table
    (user_a user_b : User) (w : Int) (o : Overlap)
    (ho : o ∈ antenna_overlap user_a user_b w) :
    o.coordinates = (pickTable user_a user_b).lookup o.antenna_id := by
  obtain ⟨ra, _, rb, _, ant, _, _, _, _, ho⟩ := mem_antenna_overlap.mp ho
  rw [ho]

/-- C1 (witness): the amended theorem applied to the concrete scenario. -/
theorem antenna_overlap_coordinates_from_picked_table_witness :
    (Overlap.mk "L2" 0 0 0 none).coordinates =
      (pickTable c1A c1B).lookup (Overlap.mk "L2" 0 0 0 none).antenna_id :=
  antenna_overlap_coordinates_from_picked_table c1A c1B 30 ⟨"L2", 0, 0, 0, none⟩
    (by decide)

/-! ## C5: symmetry of `antenna_overlap` -/

/-- C5.  For non-empty record collections and `W ≥ 0`, `antenna_overlap`
reports the same set of (location, timestamp-pair) matches in both argument
orders, with the A-side and B-side timestamps swapped. -/
theorem antenna_overlap_symm (user_a user_b : User) (w : Int)
    (ha : user_a.records ≠ []) (hb : user_b.records ≠ []) (hw : 0 ≤ w) :
    ∀ ant ta tb,
      (∃ o ∈ antenna_overlap user_a user_b w,
        o.antenna_id = ant ∧ o.user_a_time = ta ∧ o.user_b_time = tb) ↔
      (∃ o ∈ antenna_overlap user_b user_a w,
        o.antenna_id = ant ∧ o.user_a_time = tb ∧ o.user_b_time = ta) := by
  intro ant ta tb
  constructor
  · rintro ⟨o, ho, h1, h2, h3⟩
    obtain ⟨ra, hra, rb, hrb, ant', hxa, hxb, hne, hwin, hoeq⟩ :=
      mem_antenna_overlap.mp ho
    subst hoeq
    cases h1; cases h2; cases h3
    refine ⟨{ antenna_id := ant', user_a_time := rb.datetime,
              user_b_time := ra.datetime,
              delta_seconds := |rb.datetime - ra.datetime|,
              coordinates := (pickTable user_b user_a).lookup ant' },
            mem_antenna_overlap.mpr
              ⟨rb, hrb, ra, hra, ant', hxb, hxa, hne, by rwa [abs_sub_comm], rfl⟩,
            rfl, rfl, rfl⟩
  · rintro ⟨o, ho, h1, h2, h3⟩
    obtain ⟨rb, hrb, ra, hra, ant', hxb, hxa, hne, hwin, hoeq⟩ :=
      mem_antenna_overlap.mp ho
    subst hoeq
    cases h1; cases h2; cases h3
    refine ⟨{ antenna_id := ant', user_a_time := ra.datetime,
              user_b_time := rb.datetime,
              delta_seconds := |ra.datetime - rb.datetime|,
              coordinates := (pickTable user_a user_b).lookup ant' },
            mem_antenna_overlap.mpr
              ⟨ra, hra, rb, hrb, ant', hxa, hxb, hne, by rwa [abs_sub_comm], rfl⟩,
            rfl, rfl, rfl⟩

/-- C5 (witness): the symmetry theorem applied to the concrete §8 scenario
at tag `T1` and the 10:00:00/10:05:00 timestamp pair. -/
theorem antenna_overlap_symm_witness :
    (∃ o ∈ antenna_overlap uA uB 30,
      o.antenna_id = "T1" ∧ o.user_a_time = 36000 ∧ o.user_b_time = 36300) ↔
    (∃ o ∈ antenna_overlap uB uA 30,
      o.antenna_id = "T1" ∧ o.user_a_time = 36300 ∧ o.user_b_time = 36000) :=
  antenna_overlap_symm uA uB 30 (by decide) (by decide) (by decide) "T1" 36000 36300

/-! ## C6: window monotonicity of `antenna_overlap` -/

/-- C6.  Widening the window only adds overlaps: for `W1 < W2`, every
overlap reported with window `W1` is also reported, identically, with `W2`. -/
theorem antenna_overlap_window_mono (user_a user_b : User) (w1 w2 : Int)
    (h : w1 < w2) :
    ∀ o ∈ antenna_overlap user_a user_b w1, o ∈ antenna_overlap user_a user_b w2 := by
  intro o ho
  obtain ⟨ra, hra, rb, hrb, ant, hxa, hxb, hne, hwin, hoeq⟩ :=
    mem_antenna_overlap.mp ho
  refine mem_antenna_overlap.mpr ⟨ra, hra, rb, hrb, ant, hxa, hxb, hne, ?_, hoeq⟩
  have : w1 * 60 ≤ w2 * 60 :=
    mul_le_mul_of_nonneg_right h.le (by norm_num)
  omega

/-- C6 (witness): monotonicity applied to the concrete §8 scenario's single
window-30 overlap. -/
theorem antenna_overlap_window_mono_witness :
    Overlap.mk "T1" 36000 36300 300 (some (1, 2)) ∈ antenna_overlap uA uB 60 :=
  antenna_overlap_window_mono uA uB 30 60 (by norm_num)
    (Overlap.mk "T1" 36000 36300 300 (some (1, 2))) (by decide)

/-! ## C8: `min_sequence_length` has no effect -/

/-- C8.  `travel_pattern_match` returns the same matches for any two values
of `min_sequence_length`: the threshold is accepted but never enforced. -/
theorem travel_pattern_match_ignores_min_sequence_length
    (user_a user_b : User) (w : Int) (m1 m2 : Nat) :
    travel_pattern_match user_a user_b w m1 =
      travel_pattern_match user_a user_b w m2 := rfl

/-! ## C9: chains do not require distinct endpoints -/

/-- C9.  On `A→B` at `t=0` and `B→A` at `t=100` (window 30 min),
`communication_chains` emits the chain `[A, B, A]`: only the link
"first event's recipient = second event's sender" is checked, so the first
and third parties may coincide. -/
theorem communication_chains_emits_a_b_a :
    communication_chains c9users ["A", "B"] 30 =
      [{ sequence := [some "A", some "B", some "A"], times := [0, 100],
         total_time_seconds := 100,
         a_to_b := ⟨"A", some "B", 0⟩, b_to_c := ⟨"B", some "A", 100⟩ }] := by
  decide

/-! ## C7: chain correctness scenario -/

/-- C7.  On the timeline `A→B` at `t0`, `B→C` at `t0+300s`, `C→D` at
`t0+4000s`, with a 600-second window, `communication_chains` reports exactly
one chain, `[A, B, C]` with timestamps `t0` and `t0+300`, and in particular
does not report `[B, C, D]`. -/
theorem communication_chains_scenario (t0 : Int) :
    communication_chains (chainUsers t0) ["A", "B", "C"] 10 =
      [{ sequence := [some "A", some "B", some "C"], times := [t0, t0 + 300],
         total_time_seconds := 300,
         a_to_b := ⟨"A", some "B", t0⟩, b_to_c := ⟨"B", some "C", t0 + 300⟩ }] := by
  have hcomms : chainComms (chainUsers t0) ["A", "B", "C"] =
      [⟨"A", some "B", t0⟩, ⟨"B", some "C", t0 + 300⟩, ⟨"C", some "D", t0 + 4000⟩] := rfl
  have hsorted : List.Sorted (fun x y : Comm => x.time ≤ y.time)
      [⟨"A", some "B", t0⟩, ⟨"B", some "C", t0 + 300⟩, ⟨"C", some "D", t0 + 4000⟩] := by
    rw [List.sorted_cons, List.sorted_cons]
    refine ⟨?_, ?_, List.sorted_singleton _⟩
    · intro b hb
      rcases List.mem_cons.mp hb with h | h
      · subst h; show t0 ≤ t0 + 300; omega
      · rw [List.mem_singleton] at h; subst h; show t0 ≤ t0 + 4000; omega
    · intro b hb
      rw [List.mem_singleton] at hb; subst hb
      show t0 + 300 ≤ t0 + 4000; omega
  unfold communication_chains
  rw [hcomms, List.Sorted.insertionSort_eq hsorted]
  simp only [chainOuter, chainInner]
  norm_num

/-! ## C4: multi-party clusters have at least 3 distinct participants -/

/-- Everything in a grown cluster comes from the seed cluster or the scanned
timeline suffix. -/
theorem growCluster_subset (hit : Hit) (ws : Int) :
    ∀ (l cluster : List Hit) (x : Hit),
      x ∈ growCluster hit ws l cluster → x ∈ cluster ∨ x ∈ l := by
  intro l
  induction l with
  | nil => intro cluster x hx; exact Or.inl hx
  | cons o later ih =>
    intro cluster x hx
    simp only [growCluster] at hx
    split at hx
    · exact Or.inl hx
    · split at hx
      · rcases ih _ x hx with h | h
        · rcases List.mem_append.mp h with h' | h'
          · exact Or.inl h'
          · exact Or.inr (List.mem_cons.mpr (Or.inl (List.mem_singleton.mp h')))
        · exact Or.inr (List.mem_cons.mpr (Or.inr h))
      · rcases ih _ x hx with h | h
        · exact Or.inl h
        · exact Or.inr (List.mem_cons.mpr (Or.inr h))

/-- Growing a cluster keeps its participant indices pairwise distinct. -/
theorem growCluster_nodup (hit : Hit) (ws : Int) :
    ∀ (l cluster : List Hit),
      (cluster.map (·.user_index)).Nodup →
      ((growCluster hit ws l cluster).map (·.user_index)).Nodup := by
  intro l
  induction l with
  | nil => intro cluster h; exact h
  | cons o later ih =>
    intro cluster h
    simp only [growCluster]
    split
    · exact h
    · split
      · next hcond =>
        refine ih _ ?_
        simp only [List.map_append, List.map_cons, List.map_nil]
        rw [List.nodup_append]
        refine ⟨h, List.nodup_singleton _, ?_⟩
        intro a ha hb
        rw [List.mem_singleton] at hb
        subst hb
        simp at hcond
        obtain ⟨x, hx, hxv⟩ := List.mem_map.mp ha
        exact hcond.2 x hx hxv
      · exact ih _ h

/-- Every cluster emitted by the outer pass comes from one timeline position:
a seed hit and the suffix after it, grown to 3 or more members. -/
theorem clustersOf_spec (ws : Int) :
    ∀ (l : List Hit) (c : Cluster), c ∈ clustersOf ws l →
      ∃ hit rest, hit ∈ l ∧ (∀ x ∈ rest, x ∈ l) ∧
        3 ≤ (growCluster hit ws rest [hit]).length ∧
        c = emitCluster hit (growCluster hit ws rest [hit]) := by
  intro l
  induction l with
  | nil => intro c hc; simp [clustersOf] at hc
  | cons hit rest ih =>
    intro c hc
    simp only [clustersOf, List.mem_append] at hc
    rcases hc with hc | hc
    · refine ⟨hit, rest, List.mem_cons_self _ _, fun x hx => List.mem_cons_of_mem _ hx, ?_⟩
      split at hc
      · next hlen =>
        rw [List.mem_singleton] at hc
        exact ⟨hlen, hc⟩
      · simp at hc
    · obtain ⟨hit', rest', h1, h2, h3, h4⟩ := ih c hc
      exact ⟨hit', rest', List.mem_cons_of_mem _ h1,
        fun x hx => List.mem_cons_of_mem _ (h2 x hx), h3, h4⟩

/-- Deduplication only drops clusters, it never invents one. -/
theorem dedupClusters_subset :
    ∀ (seen : List (String × List Nat × Int)) (l : List Cluster) (c : Cluster),
      c ∈ dedupClusters seen l → c ∈ l := by
  intro seen l
  induction l generalizing seen with
  | nil => intro c hc; simp [dedupClusters] at hc
  | cons c0 rest ih =>
    intro c hc
    simp only [dedupClusters] at hc
    split at hc
    · exact List.mem_cons_of_mem _ (ih _ c hc)
    · rcases List.mem_cons.mp hc with h | h
      · exact h ▸ List.mem_cons_self _ _
      · exact List.mem_cons_of_mem _ (ih _ c h)

/-- Every hit collected from entity enumeration starting at index `i` carries
an index below `i` plus the number of remaining entities. -/
theorem hitsFrom_index_lt :
    ∀ (us : List User) (i : Nat) (h : Hit),
      h ∈ hitsFrom i us → h.user_index < i + us.length := by
  intro us
  induction us with
  | nil => intro i h hh; simp [hitsFrom] at hh
  | cons u rest ih =>
    intro i h hh
    simp only [hitsFrom, List.mem_append] at hh
    rcases hh with hh | hh
    · obtain ⟨r, _, hr⟩ := List.mem_filterMap.mp hh
      have : h.user_index = i := by
        split at hr
        · split at hr
          · injection hr with hr'
            exact hr' ▸ rfl
          · simp at hr
        · simp at hr
      rw [this, List.length_cons]
      omega
    · have := ih (i + 1) h hh
      simp only [List.length_cons]
      omega

/-- A duplicate-free list of naturals all below `n` has at most `n` members. -/
theorem nodup_lt_length_le {l : List Nat} {n : Nat}
    (hn : l.Nodup) (hb : ∀ x ∈ l, x < n) : l.length ≤ n := by
  classical
  have hsub : l.toFinset ⊆ Finset.range n := fun x hx =>
    Finset.mem_range.mpr (hb x (List.mem_toFinset.mp hx))
  calc l.length = l.toFinset.card := (List.toFinset_card_of_nodup hn).symm
    _ ≤ (Finset.range n).card := Finset.card_le_card hsub
    _ = n := Finset.card_range n

/-- C4.  Every cluster `multi_user_colocation` emits has at least 3 distinct
entity participants; consequently fewer than 3 input entities can never
produce a cluster (the result is empty). -/
theorem multi_user_colocation_min_three (users : List User) (w : Int)
    (c : Cluster) (hc : c ∈ multi_user_colocation users w) :
    3 ≤ c.participant_count ∧ 3 ≤ users.length := by
  simp only [multi_user_colocation] at hc
  have hc' := dedupClusters_subset _ _ _ hc
  obtain ⟨hit, rest, hhit, hrest, hlen, hceq⟩ := clustersOf_spec _ _ _ hc'
  set cluster := growCluster hit (w * 60) rest [hit] with hcluster
  have hnodup : (cluster.map (·.user_index)).Nodup := by
    exact growCluster_nodup hit (w * 60) rest [hit] (List.nodup_singleton _)
  have hcount : c.participant_count = cluster.length := by
    rw [hceq]
    simp only [emitCluster, List.length_insertionSort,
      List.dedup_eq_self.mpr hnodup, List.length_map]
  have hbound : ∀ x ∈ cluster, x.user_index < users.length := by
    intro x hx
    have hx' : x ∈ hitsFrom 0 users := by
      rcases growCluster_subset hit (w * 60) rest [hit] x hx with h | h
      · rw [List.mem_singleton] at h
        subst h
        exact (List.mem_insertionSort _).mp hhit
      · exact (List.mem_insertionSort _).mp (hrest x h)
    have := hitsFrom_index_lt users 0 x hx'
    omega
  have hidx : ∀ v ∈ cluster.map (·.user_index), v < users.length := by
    intro v hv
    obtain ⟨x, hx, hxv⟩ := List.mem_map.mp hv
    exact hxv ▸ hbound x hx
  have := nodup_lt_length_le hnodup hidx
  rw [List.length_map] at this
  constructor
  · omega
  · omega

/-- C4 (witness): the invariant applied to three users meeting at tag `T`. -/
theorem multi_user_colocation_min_three_witness :
    3 ≤ users3Cluster.participant_count ∧ 3 ≤ users3.length :=
  multi_user_colocation_min_three users3 30 users3Cluster (by decide)

/-! ## C3: null correspondents in the network aggregations -/

/-- C3 (counterexample).  A record whose correspondent is null is NOT
silently excluded: it contributes the edge `(A, null)` to the communication
matrix, a (null) contact to degree centrality, a shared contact shared by
both users, and makes the volume matrix raise a type error while
normalizing the pair. -/
theorem null_correspondent_not_excluded_counterexample :
    build_communication_matrix [u3] ["A"] = [((some "A", none), 1)] ∧
    degree_centrality [u3] ["A"] = [("A", ⟨1, 0, 1, [], [none]⟩)] ∧
    shared_contacts [u3, u3] ["A", "B"] 2 = [(none, ["A", "B"])] ∧
    communication_volume_matrix [u3] ["A"] = Except.error () :=
  ⟨by decide, by decide, by decide, rfl⟩

/-- Bumping a key changes exactly that key's total count. -/
theorem countOf_bumpMatrix (k k' : Option String × Option String)
    (m : List ((Option String × Option String) × Nat)) :
    countOf k (bumpMatrix k' m) =
      countOf k m + (if k' = k then 1 else 0) := by
  induction m with
  | nil => simp [bumpMatrix, countOf]
  | cons p rest ih =>
    obtain ⟨k0, n0⟩ := p
    simp only [bumpMatrix]
    by_cases h0 : k0 = k'
    · subst h0
      rw [if_pos rfl]
      simp only [countOf]
      split <;> omega
    · rw [if_neg h0]
      simp only [countOf, ih]
      split <;> omega

/-- Folding one user's records into the matrix adds, per key, the number of
that user's records generating the key. -/
theorem countOf_foldl_records (uid : String) (recs : List Record)
    (m : List ((Option String × Option String) × Nat))
    (k : Option String × Option String) :
    countOf k (recs.foldl (fun m r => bumpMatrix (commKey uid r) m) m) =
      countOf k m + (recs.filter (fun r => decide (commKey uid r = k))).length := by
  induction recs generalizing m with
  | nil => simp
  | cons r rest ih =>
    simp only [List.foldl_cons, List.filter_cons]
    rw [ih, countOf_bumpMatrix]
    split <;> simp_all <;> omega

/-- The full matrix holds, per key, the total number of generating records
across all (user, id) pairs: no record is dropped. -/
theorem countOf_build_communication_matrix (users : List User)
    (user_ids : List String) (k : Option String × Option String) :
    countOf k (build_communication_matrix users user_ids) =
      ((users.zip user_ids).map (fun p =>
        (p.1.records.filter (fun r => decide (commKey p.2 r = k))).length)).sum := by
  unfold build_communication_matrix
  generalize users.zip user_ids = pairs
  have main : ∀ (ps : List (User × String)) (m : List ((Option String × Option String) × Nat)),
      countOf k (ps.foldl (fun m p =>
        p.1.records.foldl (fun m r => bumpMatrix (commKey p.2 r) m) m) m) =
      countOf k m + ((ps.map (fun p =>
        (p.1.records.filter (fun r => decide (commKey p.2 r = k))).length)).sum) := by
    intro ps
    induction ps with
    | nil => simp
    | cons p rest ih =>
      intro m
      simp only [List.foldl_cons, List.map_cons, List.sum_cons]
      rw [ih, countOf_foldl_records]
      omega
  have := main pairs []
  simpa [countOf] using this

/-- C3 (amended).  A record with a null correspondent is included, not
excluded: it contributes a full unit to its (null-endpoint) key's count in
the communication matrix, and the null value appears among its user's
out-of-network contacts in degree centrality. -/
theorem null_correspondent_included (users : List User) (user_ids : List String)
    (u : User) (uid : String) (r : Record)
    (hmem : (u, uid) ∈ users.zip user_ids) (hr : r ∈ u.records)
    (hc : r.correspondent_id = none) :
    0 < countOf (commKey uid r) (build_communication_matrix users user_ids) ∧
    ((commKey uid r).1 = none ∨ (commKey uid r).2 = none) ∧
    ∃ e ∈ degree_centrality users user_ids,
      e.1 = uid ∧ none ∈ e.2.out_of_network_list := by
  refine ⟨?_, ?_, ?_⟩
  · rw [countOf_build_communication_matrix]
    have hterm : (u.records.filter
        (fun r' => decide (commKey uid r' = commKey uid r))).length ∈
        (users.zip user_ids).map (fun p =>
          (p.1.records.filter (fun r' => decide (commKey p.2 r' = commKey uid r))).length) :=
      List.mem_map.mpr ⟨(u, uid), hmem, rfl⟩
    have hpos : 0 < (u.records.filter
        (fun r' => decide (commKey uid r' = commKey uid r))).length :=
      List.length_pos.mpr (List.ne_nil_of_mem (List.mem_filter.mpr ⟨hr, by simp⟩))
    have := List.single_le_sum (fun x _ => Nat.zero_le x) _ hterm
    omega
  · unfold commKey
    split
    · exact Or.inr (by rw [hc])
    · exact Or.inl (by rw [hc])
  · refine ⟨(uid, centralityOf user_ids u), ?_, rfl, ?_⟩
    · exact (List.mem_insertionSort _).mpr (List.mem_map.mpr ⟨(u, uid), hmem, rfl⟩)
    · simp only [centralityOf, List.mem_filter]
      exact ⟨List.mem_dedup.mpr (List.mem_map.mpr ⟨r, hr, hc⟩), trivial⟩

/-- C3 (witness): inclusion of the concrete null-correspondent record. -/
theorem null_correspondent_included_witness :
    0 < countOf (commKey "A" r3) (build_communication_matrix [u3] ["A"]) ∧
    ((commKey "A" r3).1 = none ∨ (commKey "A" r3).2 = none) ∧
    ∃ e ∈ degree_centrality [u3] ["A"],
      e.1 = "A" ∧ none ∈ e.2.out_of_network_list :=
  null_correspondent_included [u3] ["A"] u3 "A" r3 (by decide) (by decide) rfl

/-! ## C2: bridge analysis and external contacts -/

/-- C2 (counterexample).  `X` is the only modeled entity communicating with
the external (non-modeled) contact `Z`, yet `identify_bridges` returns no
bridge at all — `Z` is dropped by the in-network intersection before the
exclusivity subtraction, so it is never listed under anyone. -/
theorem identify_bridges_external_counterexample :
    identify_bridges [c2X, c2Y] ["X", "Y"] = [] ∧
    some "Z" ∈ c2X.records.map (·.correspondent_id) ∧
    some "Z" ∉ c2Y.records.map (·.correspondent_id) ∧
    "Z" ∉ ["X", "Y"] := by decide

/-- Membership in a user's in-network contact list means some record of that
user names the contact, and the contact is a modeled id. -/
theorem mem_in_network_contacts {user_ids : List String} {u : User} {z : String} :
    z ∈ in_network_contacts user_ids u ↔
      some z ∈ u.records.map (·.correspondent_id) ∧ z ∈ user_ids := by
  unfold in_network_contacts
  rw [List.mem_filterMap]
  constructor
  · rintro ⟨c, hc, hz⟩
    cases c with
    | none => simp at hz
    | some s =>
      rw [Option.some_bind] at hz
      by_cases hin : s ∈ user_ids
      · rw [if_pos hin] at hz
        injection hz with hz'
        subst hz'
        exact ⟨List.mem_dedup.mp hc, hin⟩
      · rw [if_neg hin] at hz
        exact absurd hz (by simp)
  · rintro ⟨hz, hid⟩
    exact ⟨some z, List.mem_dedup.mpr hz, by simp [hid]⟩

/-- C2 (amended).  If `Z` is itself a modeled entity, distinct from `X`, and
`X` is the only modeled entity whose records name `Z`, then
`identify_bridges` lists `Z` among `X`'s exclusive contacts and under no
other entity's exclusive contacts. -/
theorem identify_bridges_exclusive_in_network
    (users : List User) (user_ids : List String) (uX : User) (X Z : String)
    (hlen : users.length = user_ids.length) (hnodup : user_ids.Nodup)
    (hX : (uX, X) ∈ users.zip user_ids)
    (hZ : Z ∈ user_ids) (hZX : Z ≠ X)
    (hcomm : some Z ∈ uX.records.map (·.correspondent_id))
    (honly : ∀ u uid, (u, uid) ∈ users.zip user_ids → uid ≠ X →
      some Z ∉ u.records.map (·.correspondent_id)) :
    (∃ b ∈ identify_bridges users user_ids,
      b.user_id = X ∧ Z ∈ b.exclusive_contacts) ∧
    (∀ b ∈ identify_bridges users user_ids,
      b.user_id ≠ X → Z ∉ b.exclusive_contacts) := by
  have hentry : ∀ e ∈ bridgeContacts users user_ids, e.1 ≠ X → Z ∉ e.2 := by
    rintro e he hne hzin
    obtain ⟨⟨u', uid'⟩, hp, hpe⟩ := List.mem_map.mp he
    rw [← hpe] at hne hzin
    exact honly u' uid' hp hne ((mem_in_network_contacts.mp hzin).1)
  have hXentry : (X, in_network_contacts user_ids uX) ∈ bridgeContacts users user_ids :=
    List.mem_map.mpr ⟨(uX, X), hX, rfl⟩
  have hZin : Z ∈ in_network_contacts user_ids uX :=
    mem_in_network_contacts.mpr ⟨hcomm, hZ⟩
  have hZothers : Z ∉ othersContacts (bridgeContacts users user_ids) X := by
    intro hmem
    obtain ⟨e, he, hze⟩ := List.mem_flatMap.mp hmem
    have he' := List.mem_filter.mp he
    exact hentry e he'.1 (by simpa using he'.2) hze
  have hZex : Z ∈ exclusiveOf (bridgeContacts users user_ids)
      (X, in_network_contacts user_ids uX) := by
    refine List.mem_filter.mpr ⟨hZin, ?_⟩
    simp only [Bool.and_eq_true, decide_eq_true_eq]
    exact ⟨hZothers, hZX⟩
  constructor
  · refine ⟨{ user_id := X,
              exclusive_contacts := exclusiveOf (bridgeContacts users user_ids)
                (X, in_network_contacts user_ids uX),
              exclusive_count := (exclusiveOf (bridgeContacts users user_ids)
                (X, in_network_contacts user_ids uX)).length,
              total_contacts := (in_network_contacts user_ids uX).length },
            ?_, rfl, hZex⟩
    unfold identify_bridges
    rw [List.mem_insertionSort]
    refine List.mem_filterMap.mpr ⟨(X, in_network_contacts user_ids uX), hXentry, ?_⟩
    simp [List.isEmpty_eq_false.mpr (List.ne_nil_of_mem hZex)]
  · intro b hb hbX hZb
    unfold identify_bridges at hb
    rw [List.mem_insertionSort] at hb
    simp only [List.mem_filterMap] at hb
    obtain ⟨e, he, hbe⟩ := hb
    split at hbe
    · exact absurd hbe (by simp)
    · cases hbe
      unfold exclusiveOf at hZb
      exact hentry e he hbX (List.mem_filter.mp hZb).1

/-- C2 (witness): the amended theorem on two users where `X`'s only contact
is the modeled entity `Y` and `Y`'s only contact is external. -/
theorem identify_bridges_exclusive_in_network_witness :
    (∃ b ∈ identify_bridges [w2X, c2Y] ["X", "Y"],
      b.user_id = "X" ∧ "Y" ∈ b.exclusive_contacts) ∧
    (∀ b ∈ identify_bridges [w2X, c2Y] ["X", "Y"],
      b.user_id ≠ "X" → "Y" ∉ b.exclusive_contacts) :=
  identify_bridges_exclusive_in_network [w2X, c2Y] ["X", "Y"] w2X "X" "Y"
    (by decide) (by decide) (by decide) (by decide) (by decide) (by decide)
    (by
      intro u uid hmem hne
      simp only [List.zip_cons_cons, List.zip_nil_left, List.mem_cons,
        List.not_mem_nil, or_false] at hmem
      cases hmem with
      | inl h =>
        injection h with h1 h2
        exact absurd h2 hne
      | inr h =>
        injection h with h1 h2
        subst h1
        decide)

/-! ## C10: termination of `network_timeline` -/

/-- Midnight of an instant never lies after it. -/
theorem midnightOf_le (t : Int) : midnightOf t ≤ t :=
  Int.ediv_mul_le t (by norm_num)

/-- One-step unfolding of the bucketing loop at positive fuel. -/
theorem ntLoop_succ (bucket_delta : Int) (comms : List (Int × String × String))
    (last_time : Int) (fuel : Nat) (s : Int) :
    ntLoop bucket_delta comms last_time (fuel + 1) s =
      if s ≤ last_time then
        match ntLoop bucket_delta comms last_time fuel (s + bucket_delta) with
        | none => none
        | some rest =>
          if (comms.filter (fun c =>
              decide (s ≤ c.1) && decide (c.1 < s + bucket_delta))).isEmpty then
            some rest
          else
            some ({ start := s, stop := s + bucket_delta,
                    active_pairs := ((comms.filter (fun c =>
                      decide (s ≤ c.1) && decide (c.1 < s + bucket_delta))).map (·.2)).dedup,
                    unique_pair_count := ((comms.filter (fun c =>
                      decide (s ≤ c.1) && decide (c.1 < s + bucket_delta))).map (·.2)).dedup.length,
                    total_communications := (comms.filter (fun c =>
                      decide (s ≤ c.1) && decide (c.1 < s + bucket_delta))).length } :: rest)
      else some [] := rfl

/-- With a positive bucket size, the bucketing loop finishes within fuel
proportional to the span it must cover. -/
theorem ntLoop_isSome (bucket_delta : Int)
    (comms : List (Int × String × String)) (last_time : Int)
    (hd : 0 < bucket_delta) :
    ∀ (n : Nat) (s : Int), last_time - s < n * bucket_delta →
      (ntLoop bucket_delta comms last_time (n + 1) s).isSome := by
  intro n
  induction n with
  | zero =>
    intro s hs
    have hns : ¬ s ≤ last_time := by
      simp only [Nat.cast_zero, zero_mul] at hs
      omega
    rw [ntLoop_succ, if_neg hns]
    rfl
  | succ m ih =>
    intro s hs
    by_cases hsl : s ≤ last_time
    · have hrec : (ntLoop bucket_delta comms last_time (m + 1) (s + bucket_delta)).isSome := by
        refine ih (s + bucket_delta) ?_
        push_cast at hs ⊢
        nlinarith
      obtain ⟨rest, hrest⟩ := Option.isSome_iff_exists.mp hrec
      rw [ntLoop_succ, if_pos hsl, hrest]
      dsimp only
      split <;> rfl
    · rw [ntLoop_succ, if_neg hsl]
      rfl

/-- With bucket size zero and a start not past the last event, the loop never
finishes, whatever the fuel. -/
theorem ntLoop_zero_none (comms : List (Int × String × String)) (last_time : Int) :
    ∀ (fuel : Nat) (s : Int), s ≤ last_time →
      ntLoop 0 comms last_time fuel s = none := by
  intro fuel
  induction fuel with
  | zero => intro s _; rfl
  | succ m ih =>
    intro s hs
    rw [ntLoop_succ, if_pos hs, add_zero, ih s hs]

/-- C10.  `network_timeline` terminates (within some fuel) whenever the
bucket size is positive; with bucket size zero and at least one successfully
built communication, the bucketing loop never advances and the call exhausts
every fuel — positivity of `time_bucket_hours` is a necessary precondition. -/
theorem network_timeline_termination (users : List User) (user_ids : List String)
    (time_bucket_hours : Int) :
    (0 < time_bucket_hours →
      ∃ fuel, network_timeline users user_ids time_bucket_hours fuel ≠ none) ∧
    (time_bucket_hours = 0 →
      ∀ comms, ntComms users user_ids = .ok comms → comms ≠ [] →
        ∀ fuel, network_timeline users user_ids time_bucket_hours fuel = none) := by
  constructor
  · intro hpos
    cases hcm : ntComms users user_ids with
    | error e =>
      exact ⟨1, by simp [network_timeline, hcm]⟩
    | ok all_comms =>
      by_cases hemp : all_comms = []
      · exact ⟨1, by simp [network_timeline, hcm, hemp]⟩
      · unfold network_timeline
        rw [hcm]
        simp only [if_neg hemp]
        unfold network_timeline_core
        cases hs : List.insertionSort (fun x y => x.1 ≤ y.1) all_comms with
        | nil => exact ⟨1, by simp⟩
        | cons c0 rest =>
          dsimp only
          have hdelta : 0 < time_bucket_hours * 3600 := by positivity
          refine ⟨((((c0 :: rest).getLast (by simp)).1 - midnightOf c0.1).toNat + 1) + 1, ?_⟩
          have hfuel : ((c0 :: rest).getLast (by simp)).1 - midnightOf c0.1 <
              (((((c0 :: rest).getLast (by simp)).1 - midnightOf c0.1).toNat + 1 : Nat) : Int) *
                (time_bucket_hours * 3600) := by
            have h1 := Int.self_le_toNat (((c0 :: rest).getLast (by simp)).1 - midnightOf c0.1)
            have h2 : (1 : Int) ≤ time_bucket_hours * 3600 := by omega
            set d : Int := ((c0 :: rest).getLast (by simp)).1 - midnightOf c0.1 with hd
            have h3 : (0 : Int) ≤ ((d.toNat + 1 : Nat) : Int) := Int.natCast_nonneg _
            calc d < ((d.toNat + 1 : Nat) : Int) := by push_cast; omega
              _ = ((d.toNat + 1 : Nat) : Int) * 1 := by ring
              _ ≤ ((d.toNat + 1 : Nat) : Int) * (time_bucket_hours * 3600) :=
                mul_le_mul_of_nonneg_left h2 h3
          have hsome := ntLoop_isSome (time_bucket_hours * 3600) (c0 :: rest)
            (((c0 :: rest).getLast (by simp)).1) hdelta
            ((((c0 :: rest).getLast (by simp)).1 - midnightOf c0.1).toNat + 1)
            (midnightOf c0.1) hfuel
          obtain ⟨v, hv⟩ := Option.isSome_iff_exists.mp hsome
          rw [hv]
          simp
  · intro hzero comms hcm hne fuel
    subst hzero
    unfold network_timeline
    rw [hcm]
    simp only [if_neg hne]
    unfold network_timeline_core
    cases hs : List.insertionSort (fun x y => x.1 ≤ y.1) comms with
    | nil =>
      have hperm := List.perm_insertionSort
        (fun x y : Int × String × String => x.1 ≤ y.1) comms
      rw [hs] at hperm
      exact absurd (List.perm_nil.mp hperm.symm) hne
    | cons c0 rest =>
      dsimp only
      have hsorted : List.Sorted (fun x y : Int × String × String => x.1 ≤ y.1)
          (c0 :: rest) := by
        rw [← hs]
        exact List.sorted_insertionSort _ _
      have hlast_mem : (c0 :: rest).getLast (by simp) ∈ c0 :: rest :=
        List.getLast_mem _
      have hc0_last : c0.1 ≤ ((c0 :: rest).getLast (by simp)).1 := by
        rcases List.mem_cons.mp hlast_mem with h | h
        · rw [h]
        · exact (List.sorted_cons.mp hsorted).1 _ h
      have hstart : midnightOf c0.1 ≤ ((c0 :: rest).getLast (by simp)).1 :=
        le_trans (midnightOf_le c0.1) hc0_last
      rw [show (0 : Int) * 3600 = 0 from by ring,
        ntLoop_zero_none (c0 :: rest) _ fuel (midnightOf c0.1) hstart]
      rfl

/-- C10 (witness): a concrete one-record input terminates with 24-hour
buckets and exhausts every fuel with 0-hour buckets. -/
theorem network_timeline_termination_witness :
    (∃ fuel, network_timeline [u10] ["A"] 24 fuel ≠ none) ∧
    (∀ fuel, network_timeline [u10] ["A"] 0 fuel = none) :=
  ⟨(network_timeline_termination [u10] ["A"] 24).1 (by norm_num),
   fun fuel => (network_timeline_termination [u10] ["A"] 0).2 rfl
     [(100, "A", "B")] (by simp [ntComms, u10, pySorted2]; decide) (by simp) fuel⟩
